import Mathlib

/- Verification development for the bullseye terminal file browser.
   The Go sources are shallowly embedded: strings are lists of characters
   (Go `len`/slicing act on bytes; for the ASCII data in all claims the two
   coincide), file contents are lists of byte values (`Nat < 256`),
   filesystem paths are lists of name components (`filepath.Join p n`
   appends, `filepath.Dir` drops the last component, the root is `[]`),
   and the filesystem itself is an explicit environment of read functions
   returning `Except` (an `error` return in Go). A Go panic (out-of-range
   slice index) is modelled by an `Option` result being `none`. -/

namespace Bullseye

/-! ## Basic string helpers (Go `strings` package operations) -/

/-- ASCII lower-casing of one character (Go `strings.ToLower`, restricted to
    the ASCII range that all claims exercise). -/
def charLowerAscii (c : Char) : Char :=
  if 'A' ≤ c ∧ c ≤ 'Z' then Char.ofNat (c.toNat + 32) else c

/-- `strings.ToLower` on a character list. -/
def toLowerL (s : List Char) : List Char := s.map charLowerAscii

/-- `strings.ToLower` on a `String`. -/
def lowerStr (s : String) : String := String.mk (toLowerL s.data)

/-- `strings.HasPrefix s pat`. -/
def startsWithB : List Char → List Char → Bool
  | _, [] => true
  | [], _ :: _ => false
  | c :: cs, d :: ds => c == d && startsWithB cs ds

/-- `strings.Contains s pat` (does `pat` occur as a contiguous substring?). -/
def containsSub (s pat : List Char) : Bool :=
  match s with
  | [] => pat.isEmpty
  | c :: rest => startsWithB (c :: rest) pat || containsSub rest pat

/-- `strings.HasSuffix s pat`. -/
def hasSuffixB (s pat : List Char) : Bool := startsWithB s.reverse pat.reverse

/-- Go's lexicographic byte-wise `<` on strings. -/
def lexLtB : List Char → List Char → Bool
  | [], [] => false
  | [], _ :: _ => true
  | _ :: _, [] => false
  | a :: as, b :: bs => if a < b then true else if b < a then false else lexLtB as bs

/-- `strings.Join parts sep`. -/
def joinSep (sep : String) : List String → String
  | [] => ""
  | [x] => x
  | x :: y :: xs => x ++ sep ++ joinSep sep (y :: xs)

/-- `strings.Split s sep` for a one-element separator (`"\n"` in the source).
    Splitting the empty sequence yields one empty field, as in Go. -/
def splitOnB {α : Type} [BEq α] (sep : α) : List α → List (List α)
  | [] => [[]]
  | a :: rest =>
    if a == sep then [] :: splitOnB sep rest
    else
      match splitOnB sep rest with
      | [] => [[a]]
      | l :: ls => (a :: l) :: ls

/-- `strings.Join fields sep` for a one-element separator. -/
def joinOnB {α : Type} (sep : α) : List (List α) → List α
  | [] => []
  | [l] => l
  | l :: l2 :: ls => l ++ sep :: joinOnB sep (l2 :: ls)

/-- The byte values of a string literal (used for preview-content markers). -/
def strBytes (s : String) : List Nat := s.data.map Char.toNat

/-- Byte values rendered back to text (preview panes display file bytes;
    ASCII-faithful, which covers every claim's data). -/
def bytesToString (l : List Nat) : String := String.mk (l.map Char.ofNat)

/-! ## Data model: `models.FileInfo` (pkg/models/fileinfo.go) -/

/-- One directory entry as the browser sees it. `name`/`isDir` come from the
    `fs.DirEntry`, `size`/`modTime` from `Entry.Info()` (the modification
    time is an abstract instant, ordered as `time.Time.Before`), `mode` is
    the display-only permission string, `isHidden` is set by
    `fileutils.GetFileInfo`. -/
structure FileInfo where
  name : String
  isDir : Bool
  size : Int
  modTime : Int
  isHidden : Bool
  mode : String
  deriving Repr, DecidableEq

/-- `fileutils.GetFileInfo`: derive the hidden flag from a leading dot. -/
def GetFileInfo (f : FileInfo) : FileInfo :=
  { f with isHidden := startsWithB f.name.data ['.'] }

/-! ## fileutils.SortFiles -/

/-- The comparison closure passed to `sort.Slice` in `fileutils.SortFiles`:
    directories strictly first (unaffected by `reverseSort`), then the
    selected key, with `reverseSort` negating only the key comparison. -/
def goLess (sortBy : String) (reverseSort : Bool) (a b : FileInfo) : Bool :=
  if a.isDir != b.isDir then a.isDir
  else
    let result :=
      if sortBy == "size" then decide (a.size < b.size)
      else if sortBy == "modified" then decide (a.modTime < b.modTime)
      else lexLtB (toLowerL a.name.data) (toLowerL b.name.data)
    if reverseSort then !result else result

/-- Insert ahead of the first element the comparator places after `x`. -/
def orderedInsertB {α : Type} (less : α → α → Bool) (x : α) : List α → List α
  | [] => [x]
  | y :: ys => if less x y then x :: y :: ys else y :: orderedInsertB less x ys

/-- A comparison sort over the source's closure. Go's `sort.Slice` is an
    unspecified comparison sort of the standard library; it is modelled as
    insertion sort over the exact `goLess` closure. -/
def insertionSortB {α : Type} (less : α → α → Bool) : List α → List α
  | [] => []
  | x :: xs => orderedInsertB less x (insertionSortB less xs)

/-- `fileutils.SortFiles`. -/
def SortFiles (files : List FileInfo) (sortBy : String) (reverseSort : Bool) : List FileInfo :=
  insertionSortB (goLess sortBy reverseSort) files

/-! ## fileutils.FilterFiles -/

/-- `fileutils.FilterFiles`: fast path when showing hidden files with no
    query; otherwise drop hidden entries (unless shown) and entries whose
    lower-cased name lacks the lower-cased query as a substring. -/
def FilterFiles (files : List FileInfo) (showHidden : Bool) (searchQuery : String) :
    List FileInfo :=
  if showHidden && searchQuery == "" then files
  else
    files.filter (fun file =>
      (showHidden || !file.isHidden) &&
      (searchQuery == "" || containsSub (toLowerL file.name.data) (toLowerL searchQuery.data)))

/-! ## fileutils.IsLikelyTextFile -/

/-- A sampled byte that Go counts as printable: visible ASCII or one of
    tab, LF, CR. -/
def printableOrWs (b : Nat) : Bool :=
  (32 ≤ b && b ≤ 126) || b == 9 || b == 10 || b == 13

/-- `fileutils.IsLikelyTextFile`. The source compares
    `float64(count)/float64(len) > 0.01` (resp. `> 0.95`); with at most 512
    sampled bytes the quotient's denominator is ≤ 512, so its distance from
    each literal is far larger than any float64 rounding error and the
    comparison is exactly the rational one, written here in cleared form. -/
def IsLikelyTextFile (content : List Nat) : Bool :=
  if content.length = 0 then true
  else
    let checkBytes := content.take 512
    let nullCount := checkBytes.countP (fun b => b == 0)
    if 100 * nullCount > checkBytes.length then false
    else
      let printableCount := checkBytes.countP printableOrWs
      100 * printableCount > 95 * checkBytes.length

/-- Modelled from the spec: the content heuristic exactly as §4.3 words it —
    sample up to the first 512 bytes, binary when more than 1% of the sampled
    bytes are null, else text when more than 95% are printable ASCII or
    tab/CR/LF — with the percentages as genuine rational fractions. Used
    only to compare against the source's `IsLikelyTextFile`. -/
def textHeuristicSpec (content : List Nat) : Bool :=
  let sample := content.take 512
  let nullCount := sample.countP (fun b => b == 0)
  if ((nullCount : ℚ) / (sample.length : ℚ)) > 1 / 100 then false
  else
    let printableCount := sample.countP printableOrWs
    ((printableCount : ℚ) / (sample.length : ℚ)) > 95 / 100

/-! ## fileutils.IsTextFileByExtension -/

/-- `filepath.Ext`: the suffix starting at the final dot, empty when there
    is no dot (entry names never contain a path separator). -/
def extOf (s : List Char) : List Char :=
  if s.contains '.' then '.' :: (s.reverse.takeWhile (fun c => c ≠ '.')).reverse
  else []

/-- The `fileutils.TextExtensions` table. -/
def TextExtensions : List String :=
  [".txt", ".go", ".py", ".js", ".ts", ".jsx", ".tsx", ".html", ".htm", ".css", ".scss",
   ".sass", ".less", ".php", ".rb", ".java", ".c", ".cpp", ".cc", ".cxx", ".h", ".hpp",
   ".cs", ".rs", ".swift", ".kt", ".scala", ".clj", ".cljs", ".hs", ".elm", ".lua", ".r",
   ".sql", ".sh", ".bash", ".zsh", ".fish", ".ps1", ".bat", ".cmd", ".vim", ".lua", ".pl",
   ".pm", ".awk", ".sed",
   ".md", ".markdown", ".json", ".yaml", ".yml", ".toml", ".xml", ".csv", ".ini", ".cfg",
   ".conf", ".env", ".gitignore", ".gitconfig", ".gitattributes", ".gitmodules",
   ".editorconfig", ".prettierrc", ".eslintrc", ".babelrc", ".npmrc", ".yarnrc",
   ".rst", ".org", ".tex", ".bib", ".man", ".1", ".2", ".3", ".4", ".5", ".6", ".7",
   ".8", ".9", ".readme", ".changelog", ".authors", ".contributors", ".copying",
   ".license", ".licence", ".todo", ".fixme", ".bugs", ".news", ".thanks", ".install",
   ".vue", ".svelte", ".astro", ".styl", ".stylus", ".postcss",
   ".tsv", ".psv", ".dsv", ".ndjson", ".jsonl", ".geojson", ".topojson",
   "dockerfile", "makefile", "cmakelists.txt", "vagrantfile", "gemfile", "rakefile",
   "package.json", "composer.json", "cargo.toml", "pyproject.toml", "poetry.lock",
   "requirements.txt", "pipfile", "pipfile.lock", "go.mod", "go.sum",
   ".log", ".out", ".err", ".tmp", ".temp", ".bak", ".backup", ".orig", ".swp", ".swo",
   ".pub", ".pem", ".key", ".crt", ".cer", ".p12", ".pfx", ".jks"]

/-- `fileutils.IsTextFileByExtension`: lower-case the name, and accept when
    some table entry equals the extension or is a suffix of the whole name. -/
def IsTextFileByExtension (fileName : String) : Bool :=
  let fn := toLowerL fileName.data
  let ext := toLowerL (extOf fn)
  TextExtensions.any (fun textExt =>
    decide (ext = textExt.data) || hasSuffixB fn (toLowerL textExt.data))

/-- The classification step of `ui.updateFilePreview` (preview.go:65-72):
    extension lookup first, the content heuristic only when it said no. -/
def previewIsText (fileName : String) (content : List Nat) : Bool :=
  let isText := IsTextFileByExtension fileName
  if isText then isText else IsLikelyTextFile content

/-! ## fileutils.FormatSize -/

/-- The `for n := size / unit; n >= unit; n /= unit` loop of `FormatSize`,
    with explicit fuel. The fuel only needs to dominate the iteration count
    (each pass divides `n` by 1024); callers pass `n` itself, which never
    runs out: when the fuel is exhausted `n` is 0 and the loop guard would
    have failed anyway. -/
def divExpAux : Nat → Nat → Nat → Nat → Nat × Nat
  | 0, _, dv, exp => (dv, exp)
  | fuel + 1, n, dv, exp =>
    if 1024 ≤ n then divExpAux fuel (n / 1024) (dv * 1024) (exp + 1) else (dv, exp)

/-- The `"KMGTPE"` unit table. -/
def unitChars : List Char := ['K', 'M', 'G', 'T', 'P', 'E']

/-- `fmt.Sprintf("%.1f", float64(size)/float64(dv))` for the positive sizes
    `FormatSize` feeds it, modelled as exact rational rounding of the tenths
    digit with ties to even (the IEEE-754 rounding of the quotient; exact at
    every value the claims test). -/
def fmtOneDec (size : Int) (dv : Nat) : String :=
  let num := size.toNat * 10
  let q := num / dv
  let r := num % dv
  let tenths :=
    if dv < 2 * r then q + 1
    else if 2 * r < dv then q
    else if q % 2 = 1 then q + 1 else q
  toString (tenths / 10) ++ "." ++ toString (tenths % 10)

/-- `fileutils.FormatSize`. -/
def FormatSize (size : Int) : String :=
  if size < 1024 then toString size ++ " B"
  else
    let n := (size / 1024).toNat
    let p := divExpAux n n 1024 0
    fmtOneDec size p.1 ++ " " ++ String.mk [unitChars.getD p.2 'K'] ++ "B"

/-! ## The binary hex dump of ui.updateFilePreview (preview.go:105-147) -/

/-- One lower-case hexadecimal digit. -/
def hexDigitChar (n : Nat) : Char :=
  if n < 10 then Char.ofNat (48 + n) else Char.ofNat (87 + n)

/-- `fmt.Sprintf("%02x", b)` for a byte. -/
def hex2 (b : Nat) : String := String.mk [hexDigitChar (b / 16), hexDigitChar (b % 16)]

/-- `fmt.Sprintf("%08x", n)` for the line offsets (all far below 16^8). -/
def hex8 (n : Nat) : String :=
  String.mk ((List.range 8).map (fun k => hexDigitChar (n / 16 ^ (7 - k) % 16)))

/-- The ASCII gutter of one dump line: the bytes themselves when visible
    ASCII, `.` otherwise. -/
def asciiGutter (slice : List Nat) : String :=
  String.mk (slice.map (fun b => if 32 ≤ b && b ≤ 126 then Char.ofNat b else '.'))

/-- One iteration of the dump loop, starting at byte offset `i`: offset,
    up to 16 hex byte columns, alignment padding, ASCII gutter. -/
def hexDumpLine (hexBytes : List Nat) (i : Nat) : String :=
  let slice := (hexBytes.drop i).take 16
  hex8 i ++ ": "
    ++ String.join (slice.map (fun b => hex2 b ++ " "))
    ++ String.join (List.replicate (16 - slice.length) "   ")
    ++ " |" ++ asciiGutter slice ++ "|"

/-- Number of iterations of `for i := 0; i < len(hexBytes); i += 16`. -/
def hexLineCount (hexBytes : List Nat) : Nat := (hexBytes.length + 15) / 16

/-- The dump lines for the first 256 bytes, each terminated by `"\n"`. -/
def hexDumpSection (content : List Nat) : String :=
  let hexBytes := content.take 256
  String.join ((List.range (hexLineCount hexBytes)).map
    (fun k => hexDumpLine hexBytes (16 * k) ++ "\n"))

/-- The whole binary branch of `updateFilePreview`: banner, capped dump,
    and the omitted-byte marker when content ran past 256 bytes. -/
def binaryPreviewBody (content : List Nat) : String :=
  "Binary file - hex preview:\n\n" ++ hexDumpSection content
    ++ (if content.length > 256 then
          "\n... (" ++ toString (content.length - 256) ++ " more bytes)"
        else "")

/-! ## The text-preview cap of ui.updateFilePreview (preview.go:89-101) -/

/-- The `"... (file truncated for preview)"` suffix the source appends,
    with its leading blank line. -/
def truncMarkerBytes : List Nat := strBytes "\n\n... (file truncated for preview)"

/-- The size cap applied to text content: only when the content is longer
    than 50000 bytes AND splits into more than 500 lines is it cut to the
    first 500 lines plus the marker. -/
def truncateForPreview (content : List Nat) : List Nat :=
  if content.length > 50000 then
    let lines := splitOnB 10 content
    if lines.length > 500 then joinOnB 10 (lines.take 500) ++ truncMarkerBytes
    else content
  else content

/-! ## Paths and the environment of external collaborators -/

/-- `filepath.Dir`: drop the last component; the root is its own parent. -/
def dirOf (p : List String) : List String := p.dropLast

/-- `filepath.Base` (`"/"` for the root). -/
def baseOf (p : List String) : String := p.getLastD "/"

/-- The external collaborators the spec excludes from the core: directory
    listing, raw file reads (`Except` mirrors Go's `error` returns), the
    icon table of icons.go, and `os.UserHomeDir`. -/
structure Env where
  readDir : List String → Except String (List FileInfo)
  readFile : List String → Except String (List Nat)
  icon : FileInfo → String
  homeDir : Option (List String)

/-- `fileutils.ReadDirWithInfo`: list the directory and derive each entry's
    hidden flag. -/
def ReadDirWithInfo (env : Env) (p : List String) : Except String (List FileInfo) :=
  (env.readDir p).map (fun entries => entries.map GetFileInfo)

/-! ## models.Model (pkg/models/fileinfo.go) -/

/-- The navigation state. `selected` is a Go `int` and is deliberately kept
    signed: nothing in the source prevents it from going negative. -/
structure Model where
  currentDir : List String := []
  parentDir : List String := []
  files : List FileInfo := []
  parentFiles : List FileInfo := []
  selected : Int := 0
  parentSelected : Int := 0
  listOffset : Int := 0
  preview : String := ""
  previewOffset : Int := 0
  width : Int := 0
  height : Int := 0
  err : Option String := none
  showHidden : Bool := false
  sortBy : String := "name"
  reverseSort : Bool := false
  searchMode : Bool := false
  searchQuery : String := ""
  deriving Repr, DecidableEq

/-- Go's `m.Files[m.Selected]`: `some` entry when the signed index is in
    range, `none` for the panic cases. -/
def selectedEntry (m : Model) : Option FileInfo :=
  if 0 ≤ m.selected then m.files.get? m.selected.toNat else none

/-- `AppModel.getVisibleHeight`. -/
def getVisibleHeight (m : Model) : Int := max 1 (m.height - 4)

/-! ## ui.UpdatePreview (internal/ui/preview.go) -/

/-- `updateDirectoryPreview`: list, filter and sort the sub-directory with
    the active configuration; show at most 100 entries, then the marker. -/
def directoryPreviewOf (env : Env) (m : Model) (selectedFile : FileInfo)
    (fullPath : List String) : String :=
  match ReadDirWithInfo env fullPath with
  | .error e => "Error: " ++ e
  | .ok subFiles =>
    let filtered := SortFiles (FilterFiles subFiles m.showHidden m.searchQuery)
      m.sortBy m.reverseSort
    " " ++ selectedFile.name ++ "\n" ++ "Items: " ++ toString filtered.length ++ "\n\n"
      ++ String.join ((filtered.take 100).map
          (fun f => env.icon f ++ " " ++ f.name ++ "\n"))
      ++ (if filtered.length > 100 then "... and more files" else "")

/-- `updateFilePreview`: info header, then text content (capped), the
    empty-file sentinel, or the binary hex dump. `time.Time.Format` and
    `os.Stat` produce display-only strings and are modelled by the entry's
    stored instant and mode string. -/
def filePreviewOf (env : Env) (_m : Model) (selectedFile : FileInfo)
    (fullPath : List String) : String :=
  match env.readFile fullPath with
  | .error e => "Error reading file: " ++ e
  | .ok content =>
    let fileName := lowerStr selectedFile.name
    let isText := previewIsText fileName content
    let header := env.icon selectedFile ++ " " ++ selectedFile.name ++ "\n"
      ++ "Size: " ++ FormatSize selectedFile.size ++ "\n"
      ++ "Modified: " ++ toString selectedFile.modTime ++ "\n"
      ++ "Mode: " ++ selectedFile.mode ++ "\n" ++ "\n"
    header ++
      (if isText && content.length != 0 then bytesToString (truncateForPreview content)
       else if content.length = 0 then "(empty file)"
       else binaryPreviewBody content)

/-- `ui.UpdatePreview`: the empty-list sentinel, else dispatch on the
    selected entry (`none` models the panic when `Selected` is out of
    range on a non-empty list). -/
def UpdatePreview (env : Env) (m : Model) : Option Model :=
  if m.files.length = 0 then some { m with preview := "Empty directory" }
  else
    match selectedEntry m with
    | none => none
    | some selectedFile =>
      let fullPath := m.currentDir ++ [selectedFile.name]
      if selectedFile.isDir then
        some { m with preview := directoryPreviewOf env m selectedFile fullPath }
      else
        some { m with preview := filePreviewOf env m selectedFile fullPath }

/-! ## AppModel.loadCurrentDir (internal/ui/model.go:51-88) -/

/-- The parent-listing block of `loadCurrentDir` (model.go:62-80), run
    after `ParentDir` has been set: away from the root, reload the parent
    listing with the same filter/sort configuration (keeping the old one on
    a read error) and point `ParentSelected` at the first entry named like
    the current directory's basename (keeping the old index when absent);
    at the root, clear the parent listing. -/
def reloadParentPane (env : Env) (m : Model) : Model :=
  if m.parentDir ≠ m.currentDir then
    match ReadDirWithInfo env m.parentDir with
    | .error _ => m
    | .ok parentFiles =>
      let pf := SortFiles (FilterFiles parentFiles m.showHidden m.searchQuery)
        m.sortBy m.reverseSort
      let currentDirName := baseOf m.currentDir
      let ps :=
        match pf.findIdx? (fun file => file.name == currentDirName) with
        | some i => (i : Int)
        | none => m.parentSelected
      { m with parentFiles := pf, parentSelected := ps }
  else { m with parentFiles := [] }

/-- The re-clamp of `loadCurrentDir` (model.go:82-85): reset the selection
    only when it ran past the end of the (possibly shrunken) list. -/
def clampSelected (m : Model) : Model :=
  if (m.files.length : Int) ≤ m.selected then
    { m with selected := max 0 ((m.files.length : Int) - 1) }
  else m

/-- `loadCurrentDir`: read + filter + sort the current directory (an error
    only sets `Err` and returns, keeping every other field), set
    `ParentDir`, reload the parent pane, clamp `Selected`, and recompute
    the preview. -/
def loadCurrentDir (env : Env) (m : Model) : Option Model :=
  match ReadDirWithInfo env m.currentDir with
  | .error e => some { m with err := some e }
  | .ok files =>
    let files := SortFiles (FilterFiles files m.showHidden m.searchQuery)
      m.sortBy m.reverseSort
    UpdatePreview env (clampSelected (reloadParentPane env
      { m with files := files, parentDir := dirOf m.currentDir }))

/-! ## AppModel.handleNormalMode (internal/ui/model.go:136-283) -/

/-- The `"up"`/`"k"` case. -/
def upStep (env : Env) (m : Model) : Option Model :=
  if 0 < m.selected then
    let m := { m with selected := m.selected - 1 }
    let m := if m.selected < m.listOffset then { m with listOffset := m.selected } else m
    UpdatePreview env m
  else some m

/-- The `"down"`/`"j"` case. -/
def downStep (env : Env) (m : Model) : Option Model :=
  if m.selected < (m.files.length : Int) - 1 then
    let m := { m with selected := m.selected + 1 }
    let vh := getVisibleHeight m
    let m := if m.listOffset + vh ≤ m.selected then { m with listOffset := m.selected - vh + 1 }
      else m
    UpdatePreview env m
  else some m

/-- The `"right"`/`"l"`/`"enter"` case: descend into a selected directory
    (resetting cursor and scroll offsets to 0), no-op on a file. -/
def descendStep (env : Env) (m : Model) : Option Model :=
  if m.files.length = 0 then some m
  else
    match selectedEntry m with
    | none => none
    | some selectedFile =>
      if selectedFile.isDir then
        loadCurrentDir env
          { m with currentDir := m.currentDir ++ [selectedFile.name],
                   selected := 0, listOffset := 0, previewOffset := 0 }
      else some m

/-- The `"left"`/`"h"` case: ascend, restoring the cursor to
    `ParentSelected` and recentring the scroll window around it. -/
def ascendStep (env : Env) (m : Model) : Option Model :=
  let parent := dirOf m.currentDir
  if parent ≠ m.currentDir then
    let m := { m with currentDir := parent, selected := m.parentSelected }
    let m := { m with listOffset := max 0 (m.selected - getVisibleHeight m / 2),
                      previewOffset := 0 }
    loadCurrentDir env m
  else some m

/-- The `"o"` case: launching the editor is external; the state is
    unchanged, but the selected entry is still indexed. -/
def openStep (m : Model) : Option Model :=
  if m.files.length = 0 then some m
  else (selectedEntry m).map (fun _ => m)

/-- The `"g"` case. -/
def goTopStep (env : Env) (m : Model) : Option Model :=
  UpdatePreview env { m with selected := 0, listOffset := 0 }

/-- The `"G"` case. -/
def goBottomStep (env : Env) (m : Model) : Option Model :=
  if 0 < m.files.length then
    let m := { m with selected := (m.files.length : Int) - 1 }
    UpdatePreview env { m with listOffset := max 0 ((m.files.length : Int) - getVisibleHeight m) }
  else some m

/-- The `"~"` case. -/
def goHomeStep (env : Env) (m : Model) : Option Model :=
  match env.homeDir with
  | some home =>
    loadCurrentDir env
      { m with currentDir := home, selected := 0, listOffset := 0, previewOffset := 0 }
  | none => some m

/-- The `"s"`/`"t"`/`"n"` cases: choosing the already-active key flips the
    direction, otherwise the key is selected with forward direction. -/
def sortKeyStep (env : Env) (m : Model) (key : String) : Option Model :=
  if m.sortBy == key then loadCurrentDir env { m with reverseSort := !m.reverseSort }
  else loadCurrentDir env { m with sortBy := key, reverseSort := false }

/-- The `"ctrl+u"` case. -/
def ctrlUStep (env : Env) (m : Model) : Option Model :=
  let vh := getVisibleHeight m
  UpdatePreview env
    { m with selected := max 0 (m.selected - vh / 2),
             listOffset := max 0 (m.listOffset - vh / 2) }

/-- The `"ctrl+d"` case. Note the unguarded `min(len(m.Files)-1, ...)`. -/
def ctrlDStep (env : Env) (m : Model) : Option Model :=
  let vh := getVisibleHeight m
  let m := { m with selected := min ((m.files.length : Int) - 1) (m.selected + vh / 2) }
  let m := if m.listOffset + vh ≤ m.selected then { m with listOffset := m.selected - vh + 1 }
    else m
  UpdatePreview env m

/-- `handleNormalMode`, dispatching exactly on the source's key strings
    (`"q"`/`"ctrl+c"` request quit and `"o"` launches an editor — both leave
    the navigation state unchanged). -/
def handleNormalMode (env : Env) (m : Model) (key : String) : Option Model :=
  if key == "ctrl+c" || key == "q" then some m
  else if key == "up" || key == "k" then upStep env m
  else if key == "down" || key == "j" then downStep env m
  else if key == "right" || key == "l" || key == "enter" then descendStep env m
  else if key == "left" || key == "h" then ascendStep env m
  else if key == "o" then openStep m
  else if key == "g" then goTopStep env m
  else if key == "G" then goBottomStep env m
  else if key == "~" then goHomeStep env m
  else if key == "/" then some { m with searchMode := true, searchQuery := "" }
  else if key == "." then loadCurrentDir env { m with showHidden := !m.showHidden }
  else if key == "s" then sortKeyStep env m "size"
  else if key == "t" then sortKeyStep env m "modified"
  else if key == "n" then sortKeyStep env m "name"
  else if key == "r" then loadCurrentDir env m
  else if key == "ctrl+u" then ctrlUStep env m
  else if key == "ctrl+d" then ctrlDStep env m
  else some m

/-- `handleSearchMode` (model.go:109-133): confirm, cancel, erase, or
    append a single printable character, rebuilding live. -/
def handleSearchMode (env : Env) (m : Model) (key : String) : Option Model :=
  if key == "enter" then loadCurrentDir env { m with searchMode := false }
  else if key == "ctrl+c" || key == "esc" then
    loadCurrentDir env { m with searchMode := false, searchQuery := "" }
  else if key == "backspace" then
    if 0 < m.searchQuery.length then
      loadCurrentDir env { m with searchQuery := String.mk m.searchQuery.data.dropLast }
    else some m
  else if key.length = 1 then loadCurrentDir env { m with searchQuery := m.searchQuery ++ key }
  else some m

/-! ## Row truncation and pane rendering (src/unnamed/part_001, view.go)

    Terminal colouring (`lipgloss` styles and borders) only wraps content in
    ANSI escapes and box glyphs; `style.Render` is modelled as the identity
    on content, and the pane functions below produce the content written to
    the `strings.Builder` of the source. -/

/-- The name-truncation logic of `renderCurrentPane`/`renderParentPane`
    (part_001:74-85, 122-132): with `maxNameWidth` interior columns left for
    the name, an over-long name is cut to `maxNameWidth` columns including a
    three-dot ellipsis when more than 3 remain, hard-cut without ellipsis
    when 1-3 remain, and dropped entirely otherwise. -/
def truncRowName (paneContentWidth : Nat) (iconLen : Nat) (name : List Char) : List Char :=
  let maxNameWidth : Int := (paneContentWidth : Int) - (iconLen : Int) - 1
  if maxNameWidth < (name.length : Int) then
    if 3 < maxNameWidth then name.take (maxNameWidth - 3).toNat ++ ['.', '.', '.']
    else if 0 < maxNameWidth then name.take maxNameWidth.toNat
    else []
  else name

/-- One listing row: `fmt.Sprintf("%s %s", icon, name)` after truncation. -/
def renderRow (icon : List Char) (paneContentWidth : Nat) (name : List Char) : List Char :=
  icon ++ [' '] ++ truncRowName paneContentWidth icon.length name

/-- The row loop of `renderCurrentPane`, over indices
    `[listOffset, min(listOffset+height-2, len))`; `none` models the Go
    panic when an index falls outside the slice. -/
def currentPaneRows (env : Env) (m : Model) (pcw : Nat) (height : Int) :
    Option (List String) :=
  let start := m.listOffset
  let stop := min (start + height - 2) (m.files.length : Int)
  (List.range (stop - start).toNat).mapM (fun k =>
    let i : Int := start + k
    (if 0 ≤ i then m.files.get? i.toNat else none).map (fun file =>
      String.mk (renderRow (env.icon file).data pcw file.name.data) ++ "\n"))

/-- `renderCurrentPane` content (part_001:101-142): header, divider, and
    either the empty-list sentinel or the visible rows. -/
def renderCurrentPaneContent (env : Env) (m : Model) (width height : Int) :
    Option String :=
  let header := " " ++ baseOf m.currentDir ++ " (" ++ toString m.files.length
    ++ " items)\n" ++ String.mk (List.replicate (width - 2).toNat '─') ++ "\n"
  if m.files.length = 0 then some (header ++ " No Items")
  else
    (currentPaneRows env m (width - 2).toNat height).map
      (fun rows => header ++ String.join rows)

/-- `renderParentPane` content (part_001:53-96): nothing at the root,
    otherwise header, divider and the first `height-2` parent rows. -/
def renderParentPaneContent (env : Env) (m : Model) (width height : Int) : String :=
  if m.parentFiles.length ≠ 0 then
    " " ++ baseOf m.parentDir ++ "\n"
      ++ String.mk (List.replicate (width - 2).toNat '─') ++ "\n"
      ++ String.join ((m.parentFiles.take (height - 2).toNat).map (fun file =>
          String.mk (renderRow (env.icon file).data (width - 2).toNat file.name.data) ++ "\n"))
  else ""

/-- The line-truncation rule of `renderPreviewPane`. -/
def truncPreviewLine (pcw : Nat) (line : List Char) : String :=
  if pcw < line.length then
    if 3 < pcw then String.mk (line.take (pcw - 3)) ++ "..."
    else String.mk (line.take pcw)
  else String.mk line

/-- One indexed preview row (`none` on an out-of-range index). -/
def previewRowAt (lines : List (List Char)) (pcw : Nat) (i : Int) : Option String :=
  (if 0 ≤ i then lines.get? i.toNat else none).map
    (fun line => truncPreviewLine pcw line ++ "\n")

/-- `renderPreviewPane` content (view.go:151-173): the visible slice of the
    preview's lines, each cut to the pane's interior width with the
    three-dot rule. -/
def renderPreviewPaneContent (m : Model) (width height : Int) : Option String :=
  if m.preview ≠ "" then
    let lines := splitOnB '\n' m.preview.data
    let start := m.previewOffset
    let stop := min (start + height - 2) (lines.length : Int)
    let pcw := (width - 2).toNat
    ((List.range (stop - start).toNat).mapM
      (fun k => previewRowAt lines pcw (start + k))).map String.join
  else some ""

/-! ## Status and help bars -/

/-- The structured status-bar content of view.go:13-20. -/
structure StatusBarContent where
  isSearchMode : Bool := false
  searchQuery : String := ""
  directory : String := ""
  sortInfo : String := ""
  fileCount : String := ""
  permissions : String := ""
  deriving Repr, DecidableEq

/-- `getStatusBarContent` (view.go:176-205): the live query in search mode;
    otherwise the selected entry's name, position counter and permission
    string when the guard `len(m.Files) > 0 && m.Selected < len(m.Files)`
    passes (the unchecked negative index would still panic: `none`), and the
    bare directory name otherwise. -/
def getStatusBarContent (m : Model) : Option StatusBarContent :=
  if m.searchMode then
    some { isSearchMode := true, searchQuery := "Search: " ++ m.searchQuery }
  else if 0 < m.files.length ∧ m.selected < (m.files.length : Int) then
    match selectedEntry m with
    | none => none
    | some selectedFile =>
      some { directory := "Dir: " ++ selectedFile.name,
             fileCount := toString (m.selected + 1) ++ "/" ++ toString m.files.length,
             permissions := selectedFile.mode }
  else some { directory := "Dir: " ++ baseOf m.currentDir }

/-- `renderStatusBar` of src/unnamed/part_001:179-204. In normal mode it
    evaluates `m.Files[m.Selected]` before any length guard, so an empty
    list (or stray index) panics: `none`. -/
def renderStatusBarP1 (m : Model) : Option String :=
  if m.searchMode then some ("Search: " ++ m.searchQuery)
  else
    let sortIndicator := if m.reverseSort then "↓" else "↑"
    match selectedEntry m with
    | none => none
    | some selectedFile =>
      let statusParts := ["Dir: " ++ selectedFile.name,
                          "Sort: " ++ m.sortBy ++ sortIndicator]
      let statusParts :=
        if 0 < m.files.length then
          statusParts ++ [toString (m.selected + 1) ++ "/" ++ toString m.files.length]
        else statusParts
      some (joinSep " | " statusParts)

/-- The status-bar assembly of `RenderView` (view.go:46-75): query when
    searching, otherwise left text, a non-negative space gap, right text. -/
def statusBarOf (m : Model) : Option String :=
  (getStatusBarContent m).map (fun c =>
    if c.isSearchMode then c.searchQuery
    else
      let leftStatus := c.directory ++ c.sortInfo
      let rightItems := (if c.permissions ≠ "" then [c.permissions] else [])
        ++ (if c.fileCount ≠ "" then [c.fileCount] else [])
      let rightStatus := joinSep " | " rightItems
      let gapWidth := max 0 (m.width - leftStatus.length - rightStatus.length - 2)
      leftStatus ++ String.mk (List.replicate gapWidth.toNat ' ') ++ rightStatus)

/-- `renderHelpBar`. -/
def renderHelpBar (m : Model) : String :=
  if m.searchMode then "Type to search | Enter:confirm | Esc:cancel"
  else "q:quit | h/l:nav | j/k:up/down | o:open | .:hidden | s:size | t:time | n:name | /:search | r:refresh"

/-! ## ui.RenderView (internal/ui/view.go:23-82) -/

/-- `RenderView`: an `Err` replaces the whole frame with the error screen;
    a zero-sized terminal shows the boot placeholder; otherwise the three
    panes, status bar and help bar are composed (`lipgloss.JoinHorizontal`
    geometry is display-only and modelled as concatenation). -/
def RenderView (env : Env) (m : Model) : Option String :=
  match m.err with
  | some e => some ("Error: " ++ e ++ "\nPress 'q' to quit.")
  | none =>
    if m.width = 0 ∨ m.height = 0 then some "Initializing..."
    else
      let parentWidth := max (m.width / 4) 15
      let currentWidth := max (m.width / 3) 20
      let previewWidth := max (m.width - parentWidth - currentWidth - 4) 20
      let visibleHeight := max 1 (m.height - 4)
      let parentPane := renderParentPaneContent env m parentWidth visibleHeight
      match renderCurrentPaneContent env m currentWidth visibleHeight,
            renderPreviewPaneContent m previewWidth visibleHeight,
            statusBarOf m with
      | some currentPane, some previewPane, some status =>
        some (parentPane ++ currentPane ++ previewPane ++ "\n" ++ status ++ "\n"
          ++ renderHelpBar m)
      | _, _, _ => none

/-! ## Concrete fixtures

    A small concrete filesystem (the root contains one directory `d`,
    which contains the plain files `a` and `b`) and model states used to
    evaluate the embedded operations at explicit inputs. -/

def fileA : FileInfo :=
  { name := "a", isDir := false, size := 0, modTime := 0, isHidden := false,
    mode := "-rw-r--r--" }

def fileB : FileInfo :=
  { name := "b", isDir := false, size := 0, modTime := 1, isHidden := false,
    mode := "-rw-r--r--" }

def dirD : FileInfo :=
  { name := "d", isDir := true, size := 0, modTime := 0, isHidden := false,
    mode := "drwxr-xr-x" }

/-- An environment whose every read fails (no preview or reload succeeds). -/
def envNull : Env :=
  { readDir := fun _ => .error "unreadable",
    readFile := fun _ => .error "unreadable",
    icon := fun _ => "F", homeDir := none }

/-- The two-level concrete filesystem. -/
def env0 : Env :=
  { readDir := fun p =>
      if p = [] then .ok [dirD]
      else if p = ["d"] then .ok [fileA, fileB]
      else .error "no such directory",
    readFile := fun _ => .ok [],
    icon := fun _ => "F", homeDir := none }

/-- Browsing inside `d` with the cursor on its second entry (`index 1`). -/
def m0 : Model :=
  { currentDir := ["d"], parentDir := [], files := [fileA, fileB],
    parentFiles := [dirD], selected := 1, parentSelected := 0,
    width := 80, height := 24 }

/-- Sitting at the root with the cursor on the directory `d`. -/
def mRoot : Model :=
  { currentDir := [], parentDir := [], files := [dirD], parentFiles := [],
    selected := 0, parentSelected := 0, width := 80, height := 24 }

/-- A normal-mode state whose snapshot is empty (exactly what a search
    query matching nothing leaves behind: `loadCurrentDir` filtered every
    entry out and clamped the cursor to 0). -/
def mEmptyList : Model :=
  { currentDir := ["tmp", "x"], parentDir := ["tmp"], files := [],
    parentFiles := [], selected := 0, parentSelected := 0,
    width := 80, height := 30, searchQuery := "zzz" }

/-- A valid state about to reload a directory that has become unreadable. -/
def mPrev : Model :=
  { currentDir := ["gone"], parentDir := [], files := [fileA, fileB],
    parentFiles := [], selected := 1, listOffset := 0,
    width := 80, height := 24 }

/-- The environment in which `mPrev.currentDir` is unreadable. -/
def envFail : Env :=
  { readDir := fun _ => .error "permission denied",
    readFile := fun _ => .error "permission denied",
    icon := fun _ => "F", homeDir := none }

/-- 50001 bytes of `a` on a single line: over the length threshold of the
    text-preview cap but far under the line-count threshold. -/
def c8content : List Nat := List.replicate 50001 97

/-- 50001 newline bytes: over both thresholds of the text-preview cap. -/
def c8newlines : List Nat := List.replicate 50001 10

/-- No file ever precedes a directory. -/
def DirsFirst (l : List FileInfo) : Prop :=
  l.Pairwise (fun a b => b.isDir = true → a.isDir = true)

/-! ## Sorting lemmas -/

/-- Membership in an ordered insertion. -/
theorem mem_orderedInsertB {α : Type} (less : α → α → Bool) (x : α) :
    ∀ (l : List α) (z : α), z ∈ orderedInsertB less x l ↔ z = x ∨ z ∈ l := by
  intro l
  induction l with
  | nil => intro z; simp [orderedInsertB]
  | cons y ys ih =>
    intro z
    simp only [orderedInsertB]
    by_cases hxy : less x y = true
    · simp [if_pos hxy]
    · simp only [if_neg hxy, List.mem_cons, ih]
      tauto

/-- Ordered insertion permutes a plain cons. -/
theorem perm_orderedInsertB {α : Type} (less : α → α → Bool) (x : α) :
    ∀ l : List α, (orderedInsertB less x l).Perm (x :: l) := by
  intro l
  induction l with
  | nil => exact List.Perm.refl _
  | cons y ys ih =>
    simp only [orderedInsertB]
    by_cases hxy : less x y = true
    · simp only [if_pos hxy]
      exact List.Perm.refl _
    · simp only [if_neg hxy]
      exact (ih.cons y).trans (List.Perm.swap x y ys)

/-- The modelled sort is a permutation of its input. -/
theorem perm_insertionSortB {α : Type} (less : α → α → Bool) :
    ∀ l : List α, (insertionSortB less l).Perm l := by
  intro l
  induction l with
  | nil => exact List.Perm.refl _
  | cons x xs ih =>
    exact (perm_orderedInsertB less x (insertionSortB less xs)).trans (ih.cons x)

/-- Inserting with any comparator that puts every directory strictly before
    every file preserves the directories-first shape. -/
theorem orderedInsertB_dirsFirst (less : FileInfo → FileInfo → Bool)
    (hl : ∀ a b : FileInfo, a.isDir = true → b.isDir = false → less a b = true)
    (hr : ∀ a b : FileInfo, a.isDir = false → b.isDir = true → less a b = false)
    (x : FileInfo) :
    ∀ l : List FileInfo, DirsFirst l → DirsFirst (orderedInsertB less x l) := by
  intro l
  induction l with
  | nil => intro _; simp [orderedInsertB, DirsFirst]
  | cons y ys ih =>
    intro h
    rcases List.pairwise_cons.mp h with ⟨hy, hys⟩
    simp only [orderedInsertB]
    by_cases hxy : less x y = true
    · simp only [if_pos hxy]
      refine List.pairwise_cons.mpr ⟨?_, h⟩
      intro z hz hzdir
      cases hxd : x.isDir with
      | true => rfl
      | false =>
        have hydir : y.isDir = true := by
          rcases List.mem_cons.mp hz with rfl | hz'
          · exact hzdir
          · exact hy z hz' hzdir
        rw [hr x y hxd hydir] at hxy
        exact absurd hxy (by simp)
    · simp only [if_neg hxy]
      refine List.pairwise_cons.mpr ⟨?_, ih hys⟩
      intro z hz hzdir
      rcases (mem_orderedInsertB less x ys z).mp hz with rfl | hz'
      · cases hyd : y.isDir with
        | true => rfl
        | false => exact absurd (hl z y hzdir hyd) hxy
      · exact hy z hz' hzdir

/-- A directories-first list splits as directories followed by files. -/
theorem dirsFirst_split :
    ∀ l : List FileInfo, DirsFirst l →
      ∃ ds fz, l = ds ++ fz ∧ (∀ e ∈ ds, e.isDir = true) ∧ (∀ e ∈ fz, e.isDir = false) := by
  intro l
  induction l with
  | nil => exact fun _ => ⟨[], [], rfl, by simp, by simp⟩
  | cons x xs ih =>
    intro h
    rcases List.pairwise_cons.mp h with ⟨hx, hxs⟩
    cases hxd : x.isDir with
    | true =>
      rcases ih hxs with ⟨ds, fz, heq, hds, hfz⟩
      refine ⟨x :: ds, fz, by rw [List.cons_append, heq], ?_, hfz⟩
      intro e he
      rcases List.mem_cons.mp he with rfl | he'
      · exact hxd
      · exact hds e he'
    | false =>
      refine ⟨[], x :: xs, rfl, by simp, ?_⟩
      intro e he
      rcases List.mem_cons.mp he with rfl | he'
      · exact hxd
      · cases hed : e.isDir with
        | true => rw [hx e he' hed] at hxd; exact absurd hxd (by simp)
        | false => rfl

/-- The source comparator puts a directory strictly before a file,
    whatever the key and direction. -/
theorem goLess_dir_file (sortBy : String) (rev : Bool) (a b : FileInfo)
    (ha : a.isDir = true) (hb : b.isDir = false) : goLess sortBy rev a b = true := by
  unfold goLess
  rw [ha, hb]
  rfl

/-- …and never a file before a directory. -/
theorem goLess_file_dir (sortBy : String) (rev : Bool) (a b : FileInfo)
    (ha : a.isDir = false) (hb : b.isDir = true) : goLess sortBy rev a b = false := by
  unfold goLess
  rw [ha, hb]
  rfl

/-- Within one partition, `reverseSort` negates exactly the key comparison. -/
theorem goLess_rev_flips (sortBy : String) (a b : FileInfo) (h : a.isDir = b.isDir) :
    goLess sortBy true a b = !goLess sortBy false a b := by
  unfold goLess
  rw [h]
  simp

/-- Every sorted snapshot is directories-first. -/
theorem SortFiles_dirsFirst (files : List FileInfo) (sortBy : String) (rev : Bool) :
    DirsFirst (SortFiles files sortBy rev) := by
  unfold SortFiles
  induction files with
  | nil => simp [insertionSortB, DirsFirst]
  | cons x xs ih =>
    exact orderedInsertB_dirsFirst (goLess sortBy rev)
      (goLess_dir_file sortBy rev) (goLess_file_dir sortBy rev) x _ ih

/-- C2: for every input list of entries and every sort key and reverse
    flag, the sorted snapshot is a permutation of the input that places all
    directories before all files; the reverse flag negates only the
    within-partition key comparison of the comparator, never the
    directories-before-files partition (a directory still compares strictly
    before a file, and a file never before a directory, for every key and
    direction). -/
theorem c2_sort_dirs_first (files : List FileInfo) (sortBy : String) (reverseSort : Bool) :
    (SortFiles files sortBy reverseSort).Perm files ∧
    (∃ ds fz, SortFiles files sortBy reverseSort = ds ++ fz ∧
      (∀ e ∈ ds, e.isDir = true) ∧ (∀ e ∈ fz, e.isDir = false)) ∧
    (∀ a b : FileInfo, a.isDir = true → b.isDir = false →
      goLess sortBy reverseSort a b = true ∧ goLess sortBy reverseSort b a = false) ∧
    (∀ a b : FileInfo, a.isDir = b.isDir →
      goLess sortBy true a b = !goLess sortBy false a b) := by
  refine ⟨perm_insertionSortB _ files,
    dirsFirst_split _ (SortFiles_dirsFirst files sortBy reverseSort), ?_, ?_⟩
  · intro a b ha hb
    exact ⟨goLess_dir_file sortBy reverseSort a b ha hb,
      goLess_file_dir sortBy reverseSort b a hb ha⟩
  · intro a b h
    exact goLess_rev_flips sortBy a b h

/-- Witness: the C2 comparator facts evaluated on concrete entries (a
    directory `d` against the file `a` under reversed name sort, and the
    reverse flag flipping a within-partition comparison). -/
theorem c2_sort_dirs_first_witness :
    goLess "name" true dirD fileA = true ∧ goLess "name" true fileA dirD = false ∧
    goLess "name" true fileA fileB = !goLess "name" false fileA fileB := by
  have h := c2_sort_dirs_first [fileA, dirD] "name" true
  exact ⟨(h.2.2.1 dirD fileA rfl rfl).1, (h.2.2.1 dirD fileA rfl rfl).2,
    h.2.2.2 fileA fileB rfl⟩

/-! ## FormatSize lemmas -/

/-- What the unit loop of `FormatSize` computes: with enough fuel it
    returns `dv` scaled by `1024^k` and the exponent advanced by `k`, where
    `k` counts exactly the divisions performed while `n` stayed ≥ 1024. -/
theorem divExpAux_spec :
    ∀ (fuel n dv e : Nat), n ≤ fuel →
      ∃ k, divExpAux fuel n dv e = (dv * 1024 ^ k, e + k) ∧
        n / 1024 ^ k < 1024 ∧ (∀ j, j < k → 1024 ≤ n / 1024 ^ j) := by
  intro fuel
  induction fuel with
  | zero =>
    intro n dv e hn
    refine ⟨0, by simp [divExpAux], ?_, by omega⟩
    have : n = 0 := by omega
    simp [this]
  | succ fuel ih =>
    intro n dv e hn
    by_cases h : 1024 ≤ n
    · have hrec : n / 1024 ≤ fuel := by
        have : n / 1024 < n := Nat.div_lt_self (by omega) (by norm_num)
        omega
      rcases ih (n / 1024) (dv * 1024) (e + 1) hrec with ⟨k, hres, hlt, hall⟩
      refine ⟨k + 1, ?_, ?_, ?_⟩
      · rw [divExpAux, if_pos h, hres]
        have h1 : dv * 1024 * 1024 ^ k = dv * 1024 ^ (k + 1) := by ring
        have h2 : e + 1 + k = e + (k + 1) := by omega
        rw [h1, h2]
      · rw [Nat.div_div_eq_div_mul] at hlt
        rw [pow_succ']
        exact hlt
      · intro j hj
        cases j with
        | zero => simpa using h
        | succ j' =>
          have hj' := hall j' (by omega)
          rw [Nat.div_div_eq_div_mul] at hj'
          rw [pow_succ']
          exact hj'
    · exact ⟨0, by simp [divExpAux, if_neg h], by simpa using (by omega : n < 1024),
        by omega⟩

/-- C9: `FormatSize` renders 0, 1023, 1024 and 1536 as the spec's exact
    strings; every size below 1024 is an exact byte count with unit `B`;
    and every size ≥ 1024 is rendered by the one-decimal formatter in the
    1024-based unit `e` with `1024^(e+1) ≤ size < 1024^(e+2)`. -/
theorem c9_FormatSize :
    FormatSize 0 = "0 B" ∧ FormatSize 1023 = "1023 B" ∧
    FormatSize 1024 = "1.0 KB" ∧ FormatSize 1536 = "1.5 KB" ∧
    (∀ s : Int, s < 1024 → FormatSize s = toString s ++ " B") ∧
    (∀ s : Int, 1024 ≤ s → ∃ e : Nat,
      (1024 : Int) ^ (e + 1) ≤ s ∧ s < (1024 : Int) ^ (e + 2) ∧
      FormatSize s = fmtOneDec s (1024 ^ (e + 1)) ++ " "
        ++ String.mk [unitChars.getD e 'K'] ++ "B") := by
  refine ⟨rfl, rfl, rfl, rfl, ?_, ?_⟩
  · intro s hs
    simp [FormatSize, if_pos hs]
  · intro s hs
    have hns : ¬ s < 1024 := by omega
    have hs0 : (0 : Int) ≤ s := by omega
    set sN := s.toNat with hsN
    have hcast : s = (sN : Int) := (Int.toNat_of_nonneg hs0).symm
    have hn : (s / 1024).toNat = sN / 1024 := by
      rw [hcast]
      rw [show ((1024 : Int)) = ((1024 : Nat) : Int) from rfl, ← Int.natCast_div]
      exact Int.toNat_natCast _
    have hsN1024 : 1024 ≤ sN := by omega
    obtain ⟨k, hres, hlt, hall⟩ :=
      divExpAux_spec ((s / 1024).toNat) ((s / 1024).toNat) 1024 0 (le_refl _)
    refine ⟨k, ?_, ?_, ?_⟩
    · cases k with
      | zero => simpa using hs
      | succ j =>
        have hj := hall j (by omega)
        rw [hn, Nat.div_div_eq_div_mul, ← pow_succ'] at hj
        have := (Nat.le_div_iff_mul_le (Nat.pos_pow_of_pos _ (by norm_num))).mp hj
        have hpow : (1024 : Nat) ^ (j + 2) ≤ sN := by
          calc (1024 : Nat) ^ (j + 2) = 1024 * 1024 ^ (j + 1) := by ring
          _ ≤ sN := this
        rw [hcast]
        exact_mod_cast hpow
    · rw [hn, Nat.div_div_eq_div_mul, ← pow_succ'] at hlt
      have := (Nat.div_lt_iff_lt_mul (Nat.pos_pow_of_pos _ (by norm_num))).mp hlt
      have hpow : sN < (1024 : Nat) ^ (k + 2) := by
        calc sN < 1024 * 1024 ^ (k + 1) := this
        _ = 1024 ^ (k + 2) := by ring
      rw [hcast]
      exact_mod_cast hpow
    · simp only [FormatSize, if_neg hns]
      rw [hres]
      have h1 : 1024 * 1024 ^ k = 1024 ^ (k + 1) := by ring
      simp [h1]

/-- Witness: C9 applied at the concrete sizes 7 and 2048. -/
theorem c9_FormatSize_witness :
    FormatSize 7 = toString (7 : Int) ++ " B" ∧
    (∃ e : Nat, (1024 : Int) ^ (e + 1) ≤ 2048 ∧ (2048 : Int) < (1024 : Int) ^ (e + 2) ∧
      FormatSize 2048 = fmtOneDec 2048 (1024 ^ (e + 1)) ++ " "
        ++ String.mk [unitChars.getD e 'K'] ++ "B") :=
  ⟨c9_FormatSize.2.2.2.2.1 7 (by norm_num), c9_FormatSize.2.2.2.2.2 2048 (by norm_num)⟩

/-! ## Text-classification lemmas -/

/-- The 1%-null float comparison of the source in exact rational form. -/
theorem nullRatio_iff (nc len : Nat) (hlen : 0 < len) :
    (((nc : ℚ) / (len : ℚ)) > 1 / 100) ↔ 100 * nc > len := by
  have hl : (0 : ℚ) < (len : ℚ) := by exact_mod_cast hlen
  rw [gt_iff_lt, div_lt_div_iff₀ (by norm_num) hl, one_mul, mul_comm (nc : ℚ) 100]
  exact_mod_cast Iff.rfl

/-- The 95%-printable float comparison in exact rational form. -/
theorem printRatio_iff (pc len : Nat) (hlen : 0 < len) :
    (((pc : ℚ) / (len : ℚ)) > 95 / 100) ↔ 100 * pc > 95 * len := by
  have hl : (0 : ℚ) < (len : ℚ) := by exact_mod_cast hlen
  rw [gt_iff_lt, div_lt_div_iff₀ (by norm_num) hl, mul_comm (pc : ℚ) 100]
  exact_mod_cast Iff.rfl

/-- C7: for every non-empty byte sequence the source classifier equals the
    spec's heuristic (binary when more than 1% of the sampled bytes are
    null, else text exactly when more than 95% are printable-or-whitespace),
    it samples at most the first 512 bytes (classification is unchanged by
    dropping everything after them), and the preview pipeline consults it
    only when the extension/name lookup did not already say text. -/
theorem c7_text_heuristic (fileName : String) (content : List Nat) (hne : content ≠ []) :
    IsLikelyTextFile content = textHeuristicSpec content ∧
    IsLikelyTextFile content = IsLikelyTextFile (content.take 512) ∧
    (IsTextFileByExtension fileName = true → previewIsText fileName content = true) ∧
    (IsTextFileByExtension fileName = false →
      previewIsText fileName content = IsLikelyTextFile content) := by
  have hlen : ¬ content.length = 0 := by simpa using hne
  have hslen : 0 < (content.take 512).length := by
    rw [List.length_take]
    omega
  refine ⟨?_, ?_, ?_, ?_⟩
  · simp only [IsLikelyTextFile, textHeuristicSpec, if_neg hlen,
      nullRatio_iff _ _ hslen, printRatio_iff _ _ hslen]
  · have ht : (content.take 512).take 512 = content.take 512 := by
      rw [List.take_take]
      norm_num
    have hlen' : ¬ (content.take 512).length = 0 := by omega
    simp only [IsLikelyTextFile, if_neg hlen, if_neg hlen', ht]
  · intro h
    simp [previewIsText, h]
  · intro h
    simp [previewIsText, h]

/-- Witness: C7 applied to the non-empty all-null content `[0,0,0]` with
    the extension-unknown name `data.bin`. -/
theorem c7_text_heuristic_witness :
    IsLikelyTextFile [0, 0, 0] = textHeuristicSpec [0, 0, 0] ∧
    previewIsText "data.bin" [0, 0, 0] = IsLikelyTextFile [0, 0, 0] := by
  have h := c7_text_heuristic "data.bin" [0, 0, 0] (by simp)
  exact ⟨h.1, h.2.2.2 (by decide)⟩

/-- C5: for a listing row in a pane of interior width `N` whose name
    exceeds its allotted width `N - iconLen - 1`: when `N > iconLen + 4` the
    rendered row (icon, blank, truncated name) is exactly `N` columns and
    the name carries the three-dot ellipsis; otherwise the name is
    hard-truncated to the allotted width with no ellipsis appended; it
    renders empty whenever `N ≤ iconLen`; and the icon itself is never
    truncated — the row always begins with the full icon and its blank. -/
theorem c5_row_truncation (N iconLen : Nat) (icon name : List Char)
    (hicon : icon.length = iconLen)
    (hlong : ((N : Int) - iconLen - 1) < (name.length : Int)) :
    (iconLen + 4 < N →
      (renderRow icon N name).length = N ∧
      List.IsSuffix ['.', '.', '.'] (truncRowName N iconLen name)) ∧
    (¬ iconLen + 4 < N →
      truncRowName N iconLen name = name.take ((N : Int) - iconLen - 1).toNat) ∧
    (N ≤ iconLen → truncRowName N iconLen name = []) ∧
    (renderRow icon N name).take (iconLen + 1) = icon ++ [' '] := by
  refine ⟨?_, ?_, ?_, ?_⟩
  · intro h4
    have h3 : (3 : Int) < (N : Int) - iconLen - 1 := by omega
    constructor
    · simp only [renderRow, truncRowName, if_pos hlong, if_pos h3, hicon,
        List.length_append, List.length_take, List.length_cons, List.length_nil]
      omega
    · simp only [truncRowName, if_pos hlong, if_pos h3]
      exact ⟨_, rfl⟩
  · intro h4
    have h3 : ¬ (3 : Int) < (N : Int) - iconLen - 1 := by omega
    simp only [truncRowName, if_pos hlong, if_neg h3]
    by_cases h0 : (0 : Int) < (N : Int) - iconLen - 1
    · rw [if_pos h0]
    · rw [if_neg h0, Int.toNat_of_nonpos (by omega), List.take_zero]
  · intro hNi
    have h3 : ¬ (3 : Int) < (N : Int) - iconLen - 1 := by omega
    have h0 : ¬ (0 : Int) < (N : Int) - iconLen - 1 := by omega
    simp only [truncRowName, if_pos hlong, if_neg h3, if_neg h0]
  · have hl : (icon ++ [' ']).length = iconLen + 1 := by simp [hicon]
    have hrw : renderRow icon N name = (icon ++ [' ']) ++ truncRowName N iconLen name := by
      rw [renderRow, hicon, List.append_assoc]
    rw [hrw, ← hl, List.take_left]

/-- Witness: C5 applied to a 15-character name in a pane of interior width
    10 with a 1-column icon: the row is exactly 10 columns and ends in the
    ellipsis. -/
theorem c5_row_truncation_witness :
    (renderRow ['I'] 10 "abcdefghijklmno".data).length = 10 ∧
    List.IsSuffix ['.', '.', '.'] (truncRowName 10 1 "abcdefghijklmno".data) :=
  (c5_row_truncation 10 1 ['I'] "abcdefghijklmno".data rfl (by decide)).1 (by decide)

/-- C6: for every 300-byte content the binary preview's hex dump has
    exactly 16 lines and the body ends with the `"44 more bytes"` marker;
    in general the dump covers only the first 256 bytes
    (`ceil(min(len,256)/16)` loop iterations) and every dump line except
    possibly the last covers exactly 16 bytes. -/
theorem c6_hex_dump (content : List Nat) (h : content.length = 300) :
    hexLineCount (content.take 256) = 16 ∧
    (∃ p, binaryPreviewBody content = p ++ "\n... (44 more bytes)") ∧
    (∀ c : List Nat, hexLineCount (c.take 256) = (min c.length 256 + 15) / 16) ∧
    (∀ (c : List Nat) (k : Nat), k + 1 < hexLineCount c →
      ((c.drop (16 * k)).take 16).length = 16) := by
  refine ⟨?_, ?_, ?_, ?_⟩
  · simp [hexLineCount, List.length_take, h]
  · refine ⟨"Binary file - hex preview:\n\n" ++ hexDumpSection content, ?_⟩
    have h256 : content.length > 256 := by omega
    simp only [binaryPreviewBody, if_pos h256, h]
    rfl
  · intro c
    simp [hexLineCount, List.length_take, Nat.min_comm]
  · intro c k hk
    simp only [hexLineCount] at hk
    have h16 : (k + 2) * 16 ≤ c.length + 15 :=
      (Nat.le_div_iff_mul_le (by norm_num : 0 < 16)).mp (by omega)
    simp only [List.length_take, List.length_drop]
    omega

/-- Witness: C6 applied to 300 zero bytes. -/
theorem c6_hex_dump_witness :
    hexLineCount ((List.replicate 300 0).take 256) = 16 ∧
    (∃ p, binaryPreviewBody (List.replicate 300 0) = p ++ "\n... (44 more bytes)") :=
  ⟨(c6_hex_dump (List.replicate 300 0) (by rw [List.length_replicate])).1,
   (c6_hex_dump (List.replicate 300 0) (by rw [List.length_replicate])).2.1⟩

/-! ## Split lemmas for the text-preview cap -/

/-- Splitting a sequence free of the separator yields it whole. -/
theorem splitOnB_of_not_mem (sep : Nat) :
    ∀ l : List Nat, sep ∉ l → splitOnB sep l = [l] := by
  intro l
  induction l with
  | nil => intro _; rfl
  | cons a rest ih =>
    intro h
    have ha : (a == sep) = false := by
      simp only [List.mem_cons, not_or] at h
      simp [Ne.symm h.1]
    have hrest : sep ∉ rest := by
      simp only [List.mem_cons, not_or] at h
      exact h.2
    simp [splitOnB, ha, ih hrest]

/-- Splitting a run of separators yields one more empty field. -/
theorem splitOnB_replicate_sep (sep : Nat) :
    ∀ n : Nat, splitOnB sep (List.replicate n sep) = List.replicate (n + 1) [] := by
  intro n
  induction n with
  | zero => rfl
  | succ n ih =>
    simp only [List.replicate_succ, splitOnB, beq_self_eq_true, if_pos rfl, ih]
    rfl

/-- C8 counterexample: 50001 bytes on a single line exceed the preview size
    threshold by content length, yet the preview keeps them verbatim — it is
    not truncated and no `"(file truncated for preview)"` marker is
    appended, contradicting the claim's "exceeds … by content length or by
    line count" reading. -/
theorem c8_counterexample :
    c8content.length > 50000 ∧ truncateForPreview c8content = c8content ∧
    ¬ List.IsSuffix truncMarkerBytes (truncateForPreview c8content) := by
  have hlen : c8content.length = 50001 := by
    rw [c8content, List.length_replicate]
  have hmem : (10 : Nat) ∉ c8content := by
    rw [c8content]
    intro hc
    have := List.eq_of_mem_replicate hc
    omega
  have heq : truncateForPreview c8content = c8content := by
    unfold truncateForPreview
    rw [if_pos (by omega), splitOnB_of_not_mem 10 c8content hmem]
    norm_num
  refine ⟨by omega, heq, ?_⟩
  intro hsuf
  rcases hsuf with ⟨t, ht⟩
  rw [heq] at ht
  have h10 : (10 : Nat) ∈ t ++ truncMarkerBytes := by
    apply List.mem_append_right
    decide
  rw [ht] at h10
  exact hmem h10

/-- C8 amended: the preview cap truncates exactly when the content is over
    50000 bytes AND splits into more than 500 lines, in which case the
    preview is the first 500 lines followed by the explicit
    `"(file truncated for preview)"` marker; and whenever the cap changes
    the content at all, the result carries that marker — content is never
    silently cut. -/
theorem c8_truncation_marker :
    (∀ content : List Nat, truncateForPreview content ≠ content →
      List.IsSuffix truncMarkerBytes (truncateForPreview content)) ∧
    (∀ content : List Nat, content.length > 50000 →
      (splitOnB 10 content).length > 500 →
      truncateForPreview content
        = joinOnB 10 ((splitOnB 10 content).take 500) ++ truncMarkerBytes ∧
      List.IsSuffix truncMarkerBytes (truncateForPreview content)) := by
  constructor
  · intro content hne
    unfold truncateForPreview at hne ⊢
    by_cases h1 : content.length > 50000
    · rw [if_pos h1] at hne ⊢
      by_cases h2 : (splitOnB 10 content).length > 500
      · rw [if_pos h2]
        exact ⟨_, rfl⟩
      · rw [if_neg h2] at hne
        exact absurd rfl hne
    · rw [if_neg h1] at hne
      exact absurd rfl hne
  · intro content h1 h2
    constructor
    · unfold truncateForPreview
      rw [if_pos h1, if_pos h2]
    · unfold truncateForPreview
      rw [if_pos h1, if_pos h2]
      exact ⟨_, rfl⟩

/-- Witness: the amended C8 applied to 50001 newline bytes, which exceed
    both thresholds. -/
theorem c8_truncation_marker_witness :
    truncateForPreview c8newlines
      = joinOnB 10 ((splitOnB 10 c8newlines).take 500) ++ truncMarkerBytes := by
  have h1 : c8newlines.length > 50000 := by
    rw [c8newlines, List.length_replicate]
    omega
  have h2 : (splitOnB 10 c8newlines).length > 500 := by
    rw [c8newlines, splitOnB_replicate_sep, List.length_replicate]
    omega
  exact (c8_truncation_marker.2 c8newlines h1 h2).1

/-! ## Navigation-state lemmas -/

/-- Recomputing the preview never moves the cursor. -/
theorem UpdatePreview_selected (env : Env) (m m' : Model)
    (h : UpdatePreview env m = some m') : m'.selected = m.selected := by
  unfold UpdatePreview at h
  split at h
  · cases h
    rfl
  · split at h
    · cases h
    · split at h
      · cases h
        rfl
      · cases h
        rfl

/-- The parent-pane reload never moves the cursor. -/
theorem reloadParentPane_selected (env : Env) (m : Model) :
    (reloadParentPane env m).selected = m.selected := by
  unfold reloadParentPane
  split
  · cases ReadDirWithInfo env m.parentDir with
    | error e => rfl
    | ok pf => rfl
  · rfl

/-- The re-clamp keeps a zero cursor at zero (an empty list clamps `0` to
    `max 0 (-1) = 0`, a non-empty one leaves it alone). -/
theorem clampSelected_zero (m : Model) (h0 : m.selected = 0) :
    (clampSelected m).selected = 0 := by
  unfold clampSelected
  split
  · next hc =>
    rw [h0] at hc
    show max 0 ((m.files.length : Int) - 1) = 0
    omega
  · exact h0

/-- A reload that starts with the cursor at zero ends with it at zero. -/
theorem loadCurrentDir_selected_zero (env : Env) (m : Model) (h0 : m.selected = 0)
    (m' : Model) (h : loadCurrentDir env m = some m') : m'.selected = 0 := by
  unfold loadCurrentDir at h
  cases hr : ReadDirWithInfo env m.currentDir with
  | error e =>
    rw [hr] at h
    cases h
    exact h0
  | ok files =>
    rw [hr] at h
    rw [UpdatePreview_selected env _ m' h]
    apply clampSelected_zero
    rw [reloadParentPane_selected]
    exact h0

/-- C1: the cursor invariant is violated by the code. In the reachable
    normal-mode state `mEmptyList` (an empty snapshot, cursor 0 — exactly
    what a search matching nothing leaves), the `ctrl+d` page-down branch of
    `handleNormalMode` assigns `Selected = min(len(Files)-1, …) = -1`,
    where the claim requires `cursorIndex == 0` on an empty snapshot. -/
theorem c1_pagedown_empty_negative_cursor :
    mEmptyList.files = [] ∧ mEmptyList.selected = 0 ∧
    (handleNormalMode envNull mEmptyList "ctrl+d").map Model.selected = some (-1) :=
  ⟨rfl, rfl, rfl⟩

/-- C3 counterexample: in the concrete filesystem `env0`, browsing `d`
    with the cursor at index 1, ascending (`left`) and then descending back
    into `d` (`right`) leaves the cursor inside `d` at 0, not at the prior
    index 1 — the claimed ascend-then-descend round trip fails. -/
theorem c3_counterexample :
    m0.selected = 1 ∧ m0.currentDir ≠ ([] : List String) ∧
    ((handleNormalMode env0 m0 "left").bind
      (fun m1 => handleNormalMode env0 m1 "right")).map Model.selected = some 0 :=
  ⟨rfl, by decide, rfl⟩

/-- C3 amended: descending (`right`) into a selected directory always
    resets the cursor inside the entered directory to 0 — after an ascend,
    a descend back lands on 0, not the prior index (the prior index is
    instead restored in the parent pane through `ParentSelected`). -/
theorem c3_descend_resets_cursor (env : Env) (m m' : Model) (sf : FileInfo)
    (hget : selectedEntry m = some sf) (hdir : sf.isDir = true)
    (h : handleNormalMode env m "right" = some m') : m'.selected = 0 := by
  rw [show handleNormalMode env m "right" = descendStep env m from rfl] at h
  unfold descendStep at h
  by_cases h0 : m.files.length = 0
  · rw [List.length_eq_zero] at h0
    rw [selectedEntry, h0] at hget
    simp at hget
  · rw [if_neg h0, hget] at h
    simp only [hdir, if_true] at h
    exact loadCurrentDir_selected_zero env _ rfl m' h

/-- Witness: descending from the root onto the directory `d` of the
    concrete filesystem ends with the cursor at 0. -/
theorem c3_descend_resets_cursor_witness :
    (handleNormalMode env0 mRoot "right").map Model.selected = some 0 := by
  cases h : handleNormalMode env0 mRoot "right" with
  | none => exact absurd h (by decide)
  | some m' =>
    show some m'.selected = some 0
    exact congrArg some (c3_descend_resets_cursor env0 mRoot m' dirD rfl rfl h)

/-- C4 amended: when reading the current directory fails, the model keeps
    its previous file list, cursor and scroll offsets (only `Err` is set)
    and the program keeps running — but `RenderView` then replaces the
    entire frame with the error screen instead of leaving the previous
    state visible and scoping the message to the failing pane. -/
theorem c4_error_replaces_frame (env : Env) (m : Model) (e : String)
    (h : env.readDir m.currentDir = .error e) :
    loadCurrentDir env m = some { m with err := some e } ∧
    RenderView env { m with err := some e }
      = some ("Error: " ++ e ++ "\nPress 'q' to quit.") := by
  constructor
  · unfold loadCurrentDir ReadDirWithInfo
    rw [h]
    rfl
  · rfl

/-- C4 counterexample: after a failed reload of `mPrev` the model still
    holds the previous listing, yet the rendered frame is exactly the
    whole-screen error text — none of the retained state is visible and the
    message is not confined to the failing pane. -/
theorem c4_counterexample :
    mPrev.files = [fileA, fileB] ∧
    (loadCurrentDir envFail mPrev).map Model.files = some [fileA, fileB] ∧
    (loadCurrentDir envFail mPrev).bind (RenderView envFail)
      = some "Error: permission denied\nPress 'q' to quit." :=
  ⟨rfl, rfl, rfl⟩

/-- Witness: the amended C4 applied to the concrete failing reload. -/
theorem c4_error_replaces_frame_witness :
    loadCurrentDir envFail mPrev = some { mPrev with err := some "permission denied" } :=
  (c4_error_replaces_frame envFail mPrev "permission denied" rfl).1

/-- C10: on the empty normal-mode state the status bar of
    src/unnamed/part_001 indexes `m.Files[m.Selected]` before any length
    guard and panics (`none`), while the guarded `getStatusBarContent` of
    view.go and the current-pane renderer are total and produce the
    `Dir:`-basename and `No Items` sentinels the claim describes. -/
theorem c10_statusbar_empty_list :
    renderStatusBarP1 mEmptyList = none ∧
    getStatusBarContent mEmptyList = some { directory := "Dir: x" } ∧
    renderCurrentPaneContent envNull mEmptyList 20 10
      = some (" x (0 items)\n" ++ String.mk (List.replicate 18 '─') ++ "\n No Items") :=
  ⟨rfl, rfl, rfl⟩

end Bullseye
